import Mathlib

/-!
Verification of the graphcool-framework deploy command and project-file
helpers, shallowly embedded from:
  src/cli/packages/graphcool-cli-core/src/commands/deploy/index.ts
  src/src/utils/file.ts
Strings are modelled as `List Char`; JavaScript string primitives
(`indexOf`, `substring`, `includes`, regex matching) are given explicit
executable models mirroring ECMAScript semantics.
-/

namespace Graphcool

/-- First index at which `pat` occurs as a contiguous substring of `s`,
or `none`.  Mirrors the search performed by JS `String.prototype.indexOf`
(the empty pattern matches at index 0, as in JS). -/
def firstIndexOf (pat : List Char) : List Char → Option Nat
  | [] => if pat.isPrefixOf ([] : List Char) then some 0 else none
  | c :: rest =>
    if pat.isPrefixOf (c :: rest) then some 0
    else (firstIndexOf pat rest).map (· + 1)

/-- JS `s.indexOf(pat)`: the first occurrence index, or `-1`. -/
def jsIndexOf (s pat : List Char) : Int :=
  match firstIndexOf pat s with
  | some n => (n : Int)
  | none => -1

/-- JS `s.includes(pat)`. -/
def jsIncludes (s pat : List Char) : Bool :=
  (firstIndexOf pat s).isSome

/-- JS `s.substring(a, b)`: both arguments are clamped into `[0, length]`
(negative values become 0) and swapped when out of order.  `Int.toNat`
realises the clamp-below-zero step. -/
def jsSubstring (s : List Char) (a b : Int) : List Char :=
  let len := s.length
  let a' := min a.toNat len
  let b' := min b.toNat len
  (s.take (max a' b')).drop (min a' b')

/-- The resolver collaborator of file.ts, restricted to the read/write
contract the claims use: a store from paths to file contents. -/
abbrev Resolver := List Char → List Char

/-- `resolver.write(path, contents)` as a functional store update. -/
def resolverWrite (r : Resolver) (path contents : List Char) : Resolver :=
  fun q => if q = path then contents else r q

/-- The literal scanned by `readProjectIdFromProjectFile`'s regex. -/
def projectIdLiteral : List Char := "# project: ".toList

/-- The literal scanned by `readVersionFromProjectFile`'s regex. -/
def versionLiteral : List Char := "# version: ".toList

/-- The token searched by `readDataModelFromProjectFile`. -/
def typeToken : List Char := "type".toList

/-- Character class `[a-z0-9]` of the project-file regexes. -/
def isLowerAlnum (c : Char) : Bool :=
  (('a' ≤ c) && (c ≤ 'z')) || (('0' ≤ c) && (c ≤ '9'))

/-- Capture group of JS `contents.match(/lit(cls*)/)`: at the leftmost
position where the literal matches, the star greedily captures the maximal
run of class characters (possibly empty); `none` when the literal never
occurs.  (With exactly one capture group a successful JS match always has
length 2, so the source's `matches.length !== 2` guard never fires.) -/
def matchLiteralThenStar (lit : List Char) (cls : Char → Bool)
    (s : List Char) : Option (List Char) :=
  (firstIndexOf lit s).map (fun i => ((s.drop i).drop lit.length).takeWhile cls)

/-- file.ts `readProjectIdFromProjectFile`:
`contents.match(/# project: ([a-z0-9]*)/)`, returning the capture group. -/
def readProjectIdFromProjectFile (resolver : Resolver) (path : List Char) :
    Option (List Char) :=
  matchLiteralThenStar projectIdLiteral isLowerAlnum (resolver path)

/-- file.ts `readVersionFromProjectFile`:
`contents.match(/# version: ([a-z0-9]*)/)`, returning the capture group. -/
def readVersionFromProjectFile (resolver : Resolver) (path : List Char) :
    Option (List Char) :=
  matchLiteralThenStar versionLiteral isLowerAlnum (resolver path)

/-- file.ts `readDataModelFromProjectFile`:
`contents.substring(contents.indexOf('type'), contents.length)`. -/
def readDataModelFromProjectFile (resolver : Resolver) (path : List Char) :
    List Char :=
  let contents := resolver path
  jsSubstring contents (jsIndexOf contents typeToken) (contents.length : Int)

/-- ProjectInfo record of file.ts (fields used by the claims). -/
structure ProjectInfo where
  projectId : List Char
  version : Option (List Char)
  schema : List Char
deriving DecidableEq

/-- file.ts `readProjectInfoFromProjectFile`: `undefined` when the id read
is `undefined` or falsy (the empty string). -/
def readProjectInfoFromProjectFile (resolver : Resolver) (path : List Char) :
    Option ProjectInfo :=
  match readProjectIdFromProjectFile resolver path with
  | none => none
  | some pid =>
    if pid.isEmpty then none
    else
      some { projectId := pid
             version := readVersionFromProjectFile resolver path
             schema := readDataModelFromProjectFile resolver path }

/-- Modelled from the spec: `projectFileSuffix` lives in
src/utils/constants.ts, which is not under src/; the file.ts header comment
names the project file `project.graphcool`, so the suffix is
`.graphcool`. -/
def projectFileSuffix : List Char := ".graphcool".toList

/-- Modelled from the spec: `graphcoolProjectFileName` lives in
src/utils/constants.ts, which is not under src/; per the file.ts header
comment the default project file is `project.graphcool`. -/
def graphcoolProjectFileName : List Char := "project.graphcool".toList

/-- file.ts `isValidProjectFilePath`: false for an absent path, otherwise
`path.endsWith(projectFileSuffix)`. -/
def isValidProjectFilePath (path : Option (List Char)) : Bool :=
  match path with
  | none => false
  | some p => projectFileSuffix.isSuffixOf p

/-- Modelled from the spec: `projectInfoToContents` lives in
src/utils/utils.ts, which is not under src/.  Spec §6 gives the persisted
format: a `# project: <id>` line, an optional `# version: <v>` line, then
the raw schema text starting at the first `type` token. -/
def projectInfoToContents (info : ProjectInfo) : List Char :=
  projectIdLiteral ++ info.projectId ++ "\n".toList ++
  (match info.version with
   | some v => versionLiteral ++ v ++ "\n".toList
   | none => []) ++
  "\n".toList ++ info.schema

/-- file.ts `writeProjectFile`: fall back to the default file name when the
given path is absent or lacks the project-file suffix, then write the
serialised project info. -/
def writeProjectFile (info : ProjectInfo) (resolver : Resolver)
    (path : Option (List Char)) : Resolver :=
  let p := if isValidProjectFilePath path
           then path.getD graphcoolProjectFileName
           else graphcoolProjectFileName
  resolverWrite resolver p (projectInfoToContents info)

/-! ## Deploy orchestrator (deploy/index.ts) -/

/-- Opaque server-side project definition object (engine type, shape
immaterial to the orchestrator logic). -/
structure ProjectDefinition where
  raw : List Char
deriving DecidableEq

/-- A structured migration error; the orchestrator only reads
`description`. -/
structure MigrationError where
  description : List Char
deriving DecidableEq

/-- Result of `client.push`.  The field shapes follow spec §3 (the engine
type declaring them is not under src/): `migrationMessages` and `errors`
are lists, possibly empty; `projectDefinition` is present when messages
exist. -/
structure MigrationResult where
  migrationMessages : List (List Char)
  errors : List MigrationError
  projectDefinition : Option ProjectDefinition
deriving DecidableEq

/-- A rejected remote call (network/transport failure of `push`). -/
inductive PushErr
  | pushFailed
deriving DecidableEq

/-- The marker substring of line 236: `'destructive changes'`. -/
def destructiveMarker : List Char := "destructive changes".toList

/-- Distinct messages passed to `this.out.log` inside `deploy`. -/
inductive Msg
  | upToDate
  | endpoint (projectId : List Char)
  | successCreated
  | updateHeader (hasErrors : Bool)
  | issuesHeader
  | blank
  | destructiveHint
  | watching
deriving DecidableEq

/-- Calls made on the reporting sink during `deploy`, in order. -/
inductive LogEvent
  | logMsg (m : Msg)
  | actionStart (projectIsNew : Bool)
  | actionStop
  | printMessages (msgs : List (List Char))
  | printErrors (errs : List MigrationError)
deriving DecidableEq

/-- Whether an event is an `out.log` call (as opposed to action-progress
or migration-printer calls). -/
def isLogCall : LogEvent → Bool
  | .logMsg _ => true
  | _ => false

/-- Final state of one `Deploy.deploy` invocation: the `deploying` flag,
the in-memory definition, the reporting calls it made, and whether it
returned normally or propagated an exception. -/
structure DeployResult where
  deploying : Bool
  definition : Option ProjectDefinition
  emitted : List LogEvent
  outcome : Except PushErr Unit

/-- `Deploy.deploy` (deploy/index.ts lines 165-248).  The push response is
passed in as an `Except`: a rejected push re-raises after `deploying` was
set and `action.start` emitted, exactly as the `await` at line 186 would.
On the no-op path the flag is cleared at line 204; on the main path the
message branch may overwrite the in-memory definition (line 220), the
error branch prints the error block, the destructive-change hint fires on
`errors[0].description` (line 236), and the flag is cleared at line 246
before the endpoint is printed. -/
def deploy (projectIsNew : Bool) (projectId : List Char)
    (pushResult : Except PushErr MigrationResult)
    (defn : Option ProjectDefinition) : DeployResult :=
  match pushResult with
  | .error e =>
    { deploying := true
      definition := defn
      emitted := [.actionStart projectIsNew]
      outcome := .error e }
  | .ok r =>
    let ev0 : List LogEvent := [.actionStart projectIsNew, .actionStop]
    if r.migrationMessages.isEmpty && r.errors.isEmpty then
      { deploying := false
        definition := defn
        emitted := ev0 ++ [.logMsg .upToDate, .logMsg (.endpoint projectId)]
        outcome := .ok () }
    else
      let msgEvents : List LogEvent :=
        if 0 < r.migrationMessages.length then
          (if projectIsNew then [LogEvent.logMsg .successCreated]
           else [LogEvent.logMsg (.updateHeader (0 < r.errors.length))]) ++
          [.printMessages r.migrationMessages]
        else []
      let defn1 :=
        if 0 < r.migrationMessages.length then r.projectDefinition else defn
      let errEvents : List LogEvent :=
        if 0 < r.errors.length then
          [.logMsg .issuesHeader, .printErrors r.errors, .logMsg .blank]
        else []
      let hintEvents : List LogEvent :=
        match r.errors with
        | [] => []
        | e :: _ =>
          if jsIncludes e.description destructiveMarker
          then [.logMsg .destructiveHint] else []
      { deploying := false
        definition := defn1
        emitted := ev0 ++ msgEvents ++ errEvents ++ hintEvents ++
                   [.logMsg (.endpoint projectId)]
        outcome := .ok () }

/-- Final state of one scheduled watch callback. -/
structure WatchResult where
  deploying : Bool
  definition : Option ProjectDefinition
  emitted : List LogEvent
  outcome : Except PushErr Unit

/-- The closure scheduled by `setImmediate` in `Deploy.run` (lines
124-130): when `this.deploying` is set the callback does nothing at all;
otherwise it reloads the definition from disk (`loadedDefn`), deploys, and
logs `Watching for change...` (skipped when the deploy threw). -/
def watchCallback (deploying : Bool)
    (defn loadedDefn : Option ProjectDefinition)
    (projectIsNew : Bool) (projectId : List Char)
    (pushResult : Except PushErr MigrationResult) : WatchResult :=
  if deploying then
    { deploying := deploying, definition := defn
      emitted := [], outcome := .ok () }
  else
    let d := deploy projectIsNew projectId pushResult loadedDefn
    { deploying := d.deploying
      definition := d.definition
      emitted := d.emitted ++
        (match d.outcome with
         | .ok _ => [.logMsg .watching]
         | .error _ => [])
      outcome := d.outcome }

/-! ## Target resolution in `Deploy.run` (lines 56-119) -/

/-- A stored target mapping (`cluster` and remote project `id`). -/
structure Target where
  cluster : List Char
  id : List Char
deriving DecidableEq

/-- Result of `env.getTargetWithName`. -/
structure FoundTarget where
  targetName : List Char
  target : Target
deriving DecidableEq

/-- The environment collaborator, restricted to what lines 56-119 use. -/
structure Env where
  activeCluster : List Char
  getTargetWithName : Option (List Char) → Option FoundTarget
  getDefaultTargetName : List Char → List Char
  isSharedCluster : List Char → Bool
  getRegionFromCluster : List Char → List Char
  hasDefault : Bool

/-- The CLI flags `Deploy.run` reads. -/
structure RunFlags where
  target : Option (List Char)
  newService : Option (List Char)
  newServiceCluster : Option (List Char)
  aliasFlag : Option (List Char)

/-- Side effects of the resolution phase, in order. -/
inductive RunEvent
  | errorServiceDoesntExist
  | createProjectCalled (cluster : List Char)
      (name serviceAlias : Option (List Char)) (region : List Char)
  | setLocalTarget (name value : List Char)
  | setLocalDefaultTarget (name : List Char)
  | saveRC
deriving DecidableEq

/-- Outcome of the resolution phase of `Deploy.run`. -/
structure ResolveResult where
  projectId : List Char
  projectIsNew : Bool
  targetName : Option (List Char)
  cluster : List Char
  isLocal : Bool
  events : List RunEvent

/-- Lines 56-119 of `Deploy.run`: choose cluster and target, then either
reuse the found target's project id or create a new project (the remote
call's result is passed in as `createdId`).  The existence check at line
93 (`if (target)`) sits inside the `if (!target)` branch of line 91 and is
therefore unreachable; it is reproduced verbatim below. -/
def runResolve (flags : RunFlags) (env : Env) (createdId : List Char) :
    ResolveResult :=
  let env1 :=
    if flags.newService.isSome && flags.newServiceCluster.isSome then
      { env with activeCluster := flags.newServiceCluster.getD [] }
    else env
  let resolved :
      Option (List Char) × Option Target × Option (List Char) :=
    match flags.newService with
    | some _ =>
      let cluster := env1.activeCluster
      (some (flags.target.getD (env1.getDefaultTargetName cluster)),
       none, some cluster)
    | none =>
      match env1.getTargetWithName flags.target with
      | some ft => (some ft.targetName, some ft.target, none)
      | none => (none, none, none)
  let targetName := resolved.1
  let target := resolved.2.1
  let cluster :=
    match resolved.2.2 with
    | some c => c
    | none =>
      match target with
      | some t => t.cluster
      | none => env1.activeCluster
  let isLocal := !env1.isSharedCluster cluster
  match target with
  | none =>
    let deadCheck : List RunEvent :=
      if (none : Option Target).isSome then [.errorServiceDoesntExist]
      else []
    let region := env1.getRegionFromCluster cluster
    let events :=
      deadCheck ++
      [RunEvent.createProjectCalled cluster flags.newService flags.aliasFlag
        region,
       RunEvent.setLocalTarget (targetName.getD [])
        (cluster ++ "/".toList ++ createdId)] ++
      (if !env1.hasDefault
       then [RunEvent.setLocalDefaultTarget (targetName.getD [])] else []) ++
      [RunEvent.saveRC]
    { projectId := createdId, projectIsNew := true, targetName := targetName
      cluster := cluster, isLocal := isLocal, events := events }
  | some t =>
    { projectId := t.id, projectIsNew := false, targetName := targetName
      cluster := cluster, isLocal := isLocal, events := [] }

/-! ## `isValidProjectName` (deploy/index.ts lines 252-254) -/

/-- Fragment of ECMAScript regexes sufficient for `/^[A-Z](.*)/`. -/
inductive JsRegex
  | cls (lo hi : Char)
  | dotStar
  | seq (a b : JsRegex)

/-- Remainders reachable by `(.*)`: drop any newline-free run (JS `.`
does not match a line terminator; `*` may match the empty string). -/
def dotStarRems : List Char → List (List Char)
  | [] => [[]]
  | c :: rest =>
    (c :: rest) :: (if c = '\n' then [] else dotStarRems rest)

/-- All suffixes left over after the regex matches a prefix of `s`. -/
def jsMatchRems : JsRegex → List Char → List (List Char)
  | .cls _ _, [] => []
  | .cls lo hi, c :: rest => if lo ≤ c && c ≤ hi then [rest] else []
  | .dotStar, s => dotStarRems s
  | .seq a b, s => (jsMatchRems a s).flatMap (jsMatchRems b)

/-- `regex.test(s)` for a `^`-anchored regex (no multiline flag): some
match starting at position 0 exists. -/
def regexTestAnchored (r : JsRegex) (s : List Char) : Bool :=
  !(jsMatchRems r s).isEmpty

/-- deploy/index.ts `isValidProjectName`: `/^[A-Z](.*)/.test(name)`. -/
def isValidProjectName (projectName : List Char) : Bool :=
  regexTestAnchored (.seq (.cls 'A' 'Z') .dotStar) projectName

/-! ## Helper lemmas -/

theorem firstIndexOf_le (pat : List Char) :
    ∀ (s : List Char) (i : Nat), firstIndexOf pat s = some i → i ≤ s.length := by
  intro s
  induction s with
  | nil =>
    intro i h
    simp only [firstIndexOf] at h
    split at h
    · simp_all
    · simp_all
  | cons c rest ih =>
    intro i h
    simp only [firstIndexOf] at h
    split at h
    · simp only [Option.some.injEq] at h
      omega
    · rw [Option.map_eq_some'] at h
      obtain ⟨j, hj, rfl⟩ := h
      have := ih j hj
      simp only [List.length_cons]
      omega

theorem dotStarRems_ne_nil (s : List Char) : dotStarRems s ≠ [] := by
  cases s <;> simp [dotStarRems]

theorem jsSubstring_natCast (s : List Char) (i : Nat) (hle : i ≤ s.length) :
    jsSubstring s (i : Int) (s.length : Int) = s.drop i := by
  simp only [jsSubstring]
  have h1 : (i : Int).toNat = i := by omega
  have h2 : ((s.length : Int)).toNat = s.length := by omega
  rw [h1, h2]
  simp [Nat.min_eq_left hle, Nat.max_eq_right hle]

theorem jsSubstring_neg_one (s : List Char) :
    jsSubstring s (-1) (s.length : Int) = s := by
  simp only [jsSubstring]
  have h1 : ((-1 : Int)).toNat = 0 := rfl
  have h2 : ((s.length : Int)).toNat = s.length := by omega
  rw [h1, h2]
  simp

/-! ## Claim theorems: project-file helpers -/

/-- Claim C6 (amended): `readDataModelFromProjectFile` returns the
substring from the first occurrence of the token `type` to end-of-file
when one exists; when the contents contain no `type` token it returns the
entire contents unchanged (JS `indexOf` yields `-1`, which `substring`
clamps to `0`), not an effectively empty string. -/
theorem readDataModel_first_type_to_eof (resolver : Resolver)
    (path : List Char) :
    readDataModelFromProjectFile resolver path =
      match firstIndexOf typeToken (resolver path) with
      | some i => (resolver path).drop i
      | none => resolver path := by
  unfold readDataModelFromProjectFile jsIndexOf
  cases h : firstIndexOf typeToken (resolver path) with
  | none =>
    simp only [h]
    exact jsSubstring_neg_one (resolver path)
  | some i =>
    have hle := firstIndexOf_le typeToken (resolver path) i h
    simp only [h]
    exact jsSubstring_natCast (resolver path) i hle

/-- Claim C6 counterexample: contents with no `type` token (a bare header
line) come back whole — a non-empty string, refuting "effectively empty
string when the content contains no `type` token". -/
theorem readDataModel_whole_when_no_type :
    readDataModelFromProjectFile (fun _ => "# project: abc123".toList) [] =
      "# project: abc123".toList ∧
    firstIndexOf typeToken "# project: abc123".toList = none ∧
    "# project: abc123".toList ≠ [] := by decide

/-- Claim C8 (amended): when the `# project: ` prefix never occurs the id
read returns `undefined` (`none`), and the project-info read returns
`undefined` exactly when the id read yields `undefined` or the empty
capture (the malformed-id case); no exception is possible (the embedded
reads are total functions). -/
theorem readProjectId_absent_none_info_none (resolver : Resolver)
    (path : List Char) :
    (firstIndexOf projectIdLiteral (resolver path) = none →
      readProjectIdFromProjectFile resolver path = none) ∧
    (readProjectInfoFromProjectFile resolver path = none ↔
      (readProjectIdFromProjectFile resolver path = none ∨
       readProjectIdFromProjectFile resolver path = some [])) := by
  constructor
  · intro h
    simp [readProjectIdFromProjectFile, matchLiteralThenStar, h]
  · unfold readProjectInfoFromProjectFile
    cases h : readProjectIdFromProjectFile resolver path with
    | none => simp
    | some pid => cases pid <;> simp

/-- Witness for C8 at the concrete contents `hello`. -/
theorem readProjectId_absent_none_info_none_witness :
    readProjectIdFromProjectFile (fun _ => "hello".toList) [] = none :=
  (readProjectId_absent_none_info_none (fun _ => "hello".toList) []).1
    (by decide)

/-- Claim C8 counterexample: for the malformed line `# project: ABC` the
id read returns the defined empty string (the regex's star capture matches
emptily), not `undefined`; the info read still returns `undefined`. -/
theorem readProjectId_malformed_empty_capture :
    readProjectIdFromProjectFile (fun _ => "# project: ABC".toList) [] =
      some [] ∧
    readProjectIdFromProjectFile (fun _ => "# project: ABC".toList) [] ≠
      none ∧
    readProjectInfoFromProjectFile (fun _ => "# project: ABC".toList) [] =
      none := by decide

/-- The concrete project info of the round-trip claim. -/
def roundTripInfo : ProjectInfo :=
  { projectId := "abc123".toList
    version := none
    schema := "type User { id: ID! }".toList }

/-- Claim C9: writing a project file for id `abc123` and schema
`type User { id: ID! }` and reading the same path back yields projectId
`abc123` and a schema beginning with `type User`. -/
theorem projectFile_roundTrip :
    readProjectIdFromProjectFile
        (writeProjectFile roundTripInfo (fun _ => [])
          (some graphcoolProjectFileName))
        graphcoolProjectFileName = some "abc123".toList ∧
    "type User".toList.isPrefixOf
      (readDataModelFromProjectFile
        (writeProjectFile roundTripInfo (fun _ => [])
          (some graphcoolProjectFileName))
        graphcoolProjectFileName) = true := by decide

/-- Claim C10: `isValidProjectName` accepts exactly the strings whose
first character lies in the ASCII range `A`-`Z`; in particular the empty
string, and any string starting with a lowercase letter, digit or symbol,
is rejected. -/
theorem isValidProjectName_iff_uppercase_start (s : List Char) :
    isValidProjectName s = true ↔
      ∃ c t, s = c :: t ∧ 'A' ≤ c ∧ c ≤ 'Z' := by
  cases s with
  | nil => simp [isValidProjectName, regexTestAnchored, jsMatchRems]
  | cons c t =>
    have key : isValidProjectName (c :: t) = ('A' ≤ c && c ≤ 'Z') := by
      simp only [isValidProjectName, regexTestAnchored, jsMatchRems]
      by_cases h1 : ('A' ≤ c)
      · by_cases h2 : (c ≤ 'Z')
        · simp [h1, h2, dotStarRems_ne_nil]
        · simp [h1, h2]
      · simp [h1]
    rw [key]
    constructor
    · intro hb
      rw [Bool.and_eq_true, decide_eq_true_eq, decide_eq_true_eq] at hb
      exact ⟨c, t, rfl, hb.1, hb.2⟩
    · rintro ⟨c', t', heq, hA, hZ⟩
      cases heq
      rw [Bool.and_eq_true, decide_eq_true_eq, decide_eq_true_eq]
      exact ⟨hA, hZ⟩

/-! ## Claim theorems: deploy orchestrator -/

/-- Claim C1 (code divergence): when the push call rejects, `deploy`
propagates the exception with the `deploying` flag still set — the clear
at lines 204/246 sits on the normal-completion path only — and the
endpoint URL is never printed.  Evaluated at a concrete failing input. -/
theorem deploy_pushFailure_leaves_flag_set :
    (deploy false "abc123".toList (.error .pushFailed) none).deploying =
      true ∧
    ((deploy false "abc123".toList (.error .pushFailed) none).emitted.count
      (.logMsg (.endpoint "abc123".toList))) = 0 := by
  constructor
  · rfl
  · decide

/-- Claim C2: a watch event scheduled while `deploying` is `true` is a
complete no-op — no reporting call is made, the definition is not
reloaded, and no deploy begins; the event is dropped, not queued. -/
theorem watchCallback_noop_while_deploying
    (defn loadedDefn : Option ProjectDefinition) (projectIsNew : Bool)
    (projectId : List Char) (pushResult : Except PushErr MigrationResult) :
    (watchCallback true defn loadedDefn projectIsNew projectId
        pushResult).emitted = [] ∧
    (watchCallback true defn loadedDefn projectIsNew projectId
        pushResult).definition = defn ∧
    (watchCallback true defn loadedDefn projectIsNew projectId
        pushResult).deploying = true := by
  simp [watchCallback]

/-- Claim C3 counterexample: the marker appears only in the second error's
description, yet the force-flag hint is not emitted at all — line 236
inspects `errors[0]` only, not every error. -/
theorem destructiveHint_missed_on_second_error :
    (∃ e ∈ (MigrationResult.mk []
        [⟨"field rename".toList⟩,
         ⟨"rejected: destructive changes ahead".toList⟩] none).errors,
      jsIncludes e.description destructiveMarker = true) ∧
    ((deploy false "p1".toList
        (.ok (MigrationResult.mk []
          [⟨"field rename".toList⟩,
           ⟨"rejected: destructive changes ahead".toList⟩] none))
        none).emitted.count (.logMsg .destructiveHint)) = 0 := by decide

/-- Claim C3 (amended): the force-flag hint is emitted exactly once when
the errors list is non-empty and the description of its first error
contains the destructive-change marker. -/
theorem destructiveHint_once_for_first_error (projectIsNew : Bool)
    (projectId : List Char) (defn : Option ProjectDefinition)
    (r : MigrationResult) (e : MigrationError) (rest : List MigrationError)
    (he : r.errors = e :: rest)
    (hd : jsIncludes e.description destructiveMarker = true) :
    ((deploy projectIsNew projectId (.ok r) defn).emitted.count
      (.logMsg .destructiveHint)) = 1 := by
  obtain ⟨msgs, errs, pd⟩ := r
  simp only at he
  subst he
  simp only [deploy, List.isEmpty_cons, Bool.and_false, Bool.false_eq_true,
    if_false]
  rcases msgs with _ | ⟨m, ms⟩ <;> cases projectIsNew <;>
    simp [List.count_append, List.count_cons, hd]

/-- Witness for C3 (amended) at a concrete one-error result. -/
theorem destructiveHint_once_for_first_error_witness :
    ((deploy false "p1".toList
        (.ok (MigrationResult.mk []
          [⟨"rejected: destructive changes ahead".toList⟩] none))
        none).emitted.count (.logMsg .destructiveHint)) = 1 :=
  destructiveHint_once_for_first_error false "p1".toList none
    (MigrationResult.mk []
      [⟨"rejected: destructive changes ahead".toList⟩] none)
    ⟨"rejected: destructive changes ahead".toList⟩ [] rfl (by decide)

/-- Claim C4: with no migration messages and no errors the `out.log`
calls of the deploy are exactly the up-to-date message followed by the
endpoint, and the in-memory definition is untouched. -/
theorem deploy_noop_upToDate_and_endpoint (projectIsNew : Bool)
    (projectId : List Char) (defn : Option ProjectDefinition)
    (r : MigrationResult) (hm : r.migrationMessages = [])
    (he : r.errors = []) :
    ((deploy projectIsNew projectId (.ok r) defn).emitted.filter
        isLogCall) =
      [.logMsg .upToDate, .logMsg (.endpoint projectId)] ∧
    (deploy projectIsNew projectId (.ok r) defn).definition = defn := by
  obtain ⟨msgs, errs, pd⟩ := r
  simp only at hm he
  subst hm
  subst he
  simp [deploy, isLogCall]

/-- Witness for C4 at a concrete empty migration result. -/
theorem deploy_noop_upToDate_and_endpoint_witness :
    ((deploy false "p2".toList (.ok (MigrationResult.mk [] [] none))
        none).emitted.filter isLogCall) =
      [.logMsg .upToDate, .logMsg (.endpoint "p2".toList)] ∧
    (deploy false "p2".toList (.ok (MigrationResult.mk [] [] none))
        none).definition = none :=
  deploy_noop_upToDate_and_endpoint false "p2".toList none
    (MigrationResult.mk [] [] none) rfl rfl

/-- Claim C5: whenever the migration result carries at least one
migration message, result handling overwrites the in-memory definition
with the server-returned `projectDefinition`. -/
theorem deploy_messages_overwrite_definition (projectIsNew : Bool)
    (projectId : List Char) (defn : Option ProjectDefinition)
    (r : MigrationResult) (hm : r.migrationMessages ≠ []) :
    (deploy projectIsNew projectId (.ok r) defn).definition =
      r.projectDefinition := by
  obtain ⟨msgs, errs, pd⟩ := r
  simp only at hm ⊢
  rcases msgs with _ | ⟨m, ms⟩
  · exact absurd rfl hm
  · simp [deploy]

/-- Witness for C5 at a concrete one-message result. -/
theorem deploy_messages_overwrite_definition_witness :
    (deploy false "p3".toList
        (.ok (MigrationResult.mk ["created type User".toList] []
          (some ⟨"serverdef".toList⟩))) none).definition =
      some ⟨"serverdef".toList⟩ :=
  deploy_messages_overwrite_definition false "p3".toList none
    (MigrationResult.mk ["created type User".toList] []
      (some ⟨"serverdef".toList⟩)) (by decide)

/-- The environment used by the C7 failing input: no target resolves. -/
def c7Env : Env :=
  { activeCluster := "shared-eu-west-1".toList
    getTargetWithName := fun _ => none
    getDefaultTargetName := fun _ => "dev".toList
    isSharedCluster := fun _ => true
    getRegionFromCluster := fun _ => "eu-west-1".toList
    hasDefault := false }

/-- The flags of the C7 failing input: an explicit `--target my-service`
that does not resolve, with no new-service flag. -/
def c7Flags : RunFlags :=
  { target := some "my-service".toList
    newService := none
    newServiceCluster := none
    aliasFlag := none }

/-- Claim C7 (code divergence): with an explicit target flag that resolves
to no known target, `Deploy.run` emits no `ServiceDoesntExistError` — the
check at line 93 is unreachable inside the `!target` branch — and instead
silently creates a new project. -/
theorem run_missing_target_creates_project :
    (runResolve c7Flags c7Env "newid123".toList).projectIsNew = true ∧
    ((runResolve c7Flags c7Env "newid123".toList).events.count
      RunEvent.errorServiceDoesntExist) = 0 ∧
    (RunEvent.createProjectCalled "shared-eu-west-1".toList none none
        "eu-west-1".toList) ∈
      (runResolve c7Flags c7Env "newid123".toList).events := by decide

end Graphcool
